import Mathlib

/-
Verification of the parse-duration library (src/index.ts, exporting
`parseDurationMs` and `isDurationUnit`) against its specification.

Embedding conventions:

* JavaScript strings are embedded as `List Char`.
* JavaScript numbers are embedded as exact rationals (`Rat`).  `Number(s)`
  applied to a decimal literal is modelled as the exact mathematical value of
  the literal; the rounding of that value to the nearest IEEE-754 double is
  not modelled (all of the specification's statements are phrased over exact
  real values).  The one IEEE artefact that *is* modelled, because the source
  guards against it explicitly with `Number.isFinite`, is overflow of a
  decimal literal to a signed Infinity: `Number(s)` is infinite exactly when the
  literal's magnitude reaches 2^1024 - 2^970 (half an ulp above the largest
  finite double), and `jsFinite` captures that threshold exactly.
* `Math.round` (round half toward positive infinity on exact values) is
  `jsRound q = ⌊q + 1/2⌋`.  JavaScript's signed zero is not representable in
  `Int`; `-0` is embedded as `0` (the spec only requires numeric equality).
* `UNIT_MS` is a plain object literal, so the property access `UNIT_MS[unit]`
  also sees `Object.prototype`; `unitProp` models this.  The only inherited
  property reachable from a lowercased `[a-zA-Z]+` unit text is
  `constructor`, which is truthy but not a number: it escapes the falsy
  unknown-unit test and turns the running total into NaN.  A NaN result is
  embedded as `none` in the `Option Int` the parser returns.
* Thrown errors are embedded as the `PError` inductive carried by `Except`;
  each constructor records the strings interpolated into the message template,
  in particular the original untrimmed input.
-/

/-- Whitespace class of JavaScript: the characters removed by
`String.prototype.trim` and matched by the regex class `\s`
(tab 9, LF 10, VT 11, FF 12, CR 13, space 32, NBSP 160, Ogham mark 5760,
en-quad..hair-space 8192-8202, LS 8232, PS 8233, NNBSP 8239, MMSP 8287,
ideographic space 12288, BOM 65279). -/
def isWS (c : Char) : Bool :=
  decide ((9 ≤ c.toNat ∧ c.toNat ≤ 13) ∨ c.toNat = 32 ∨ c.toNat = 160 ∨
    c.toNat = 5760 ∨ (8192 ≤ c.toNat ∧ c.toNat ≤ 8202) ∨ c.toNat = 8232 ∨
    c.toNat = 8233 ∨ c.toNat = 8239 ∨ c.toNat = 8287 ∨ c.toNat = 12288 ∨
    c.toNat = 65279)

/-- The regex class `\d`, i.e. the ASCII digits 0-9 (code points 48-57). -/
def isDigit (c : Char) : Bool :=
  decide (48 ≤ c.toNat ∧ c.toNat ≤ 57)

/-- The regex class `[a-zA-Z]` (code points 65-90 and 97-122). -/
def isAlpha (c : Char) : Bool :=
  decide ((65 ≤ c.toNat ∧ c.toNat ≤ 90) ∨ (97 ≤ c.toNat ∧ c.toNat ≤ 122))

/-- `String.prototype.trim`: drop leading and trailing whitespace. -/
def trim (s : List Char) : List Char :=
  ((s.dropWhile isWS).reverse.dropWhile isWS).reverse

/-- Value of a digit string read in base 10 (the integer part of `Number(s)`). -/
def digitsToNat (s : List Char) : Nat :=
  s.foldl (fun a c => 10 * a + (c.toNat - 48)) 0

/-- Value contributed by the tail after the integer digits of a decimal
literal: `.ddd` contributes the fraction, anything else contributes 0. -/
def fracVal : List Char → Rat
  | '.' :: fs => (digitsToNat fs : Rat) / ((10 : Rat) ^ fs.length)
  | _ => 0

/-- Exact value of an unsigned decimal literal `\d+(\.\d+)?`
(integer digits plus optional fraction). -/
def parseNumBody (s : List Char) : Rat :=
  (digitsToNat (s.takeWhile isDigit) : Rat) + fracVal (s.dropWhile isDigit)

/-- Exact value of a signed decimal literal `[+-]?\d+(\.\d+)?`,
i.e. `Number(s)` for strings produced by the patterns of this library. -/
def parseSigned (s : List Char) : Rat :=
  match s with
  | '+' :: r => parseNumBody r
  | '-' :: r => -(parseNumBody r)
  | _ => parseNumBody s

/-- Matcher for `^\d+$`: one or more digits. -/
def isDigits1 (s : List Char) : Bool :=
  !(s.isEmpty) && s.all isDigit

/-- Tail check for `^\d+(\.\d+)?$` after the leading digits: either nothing,
or a dot followed by one or more digits. -/
def numTailOK : List Char → Bool
  | [] => true
  | '.' :: fs => isDigits1 fs
  | _ => false

/-- Matcher for `^\d+(\.\d+)?$`. -/
def isNumBody (s : List Char) : Bool :=
  isDigits1 (s.takeWhile isDigit) && numTailOK (s.dropWhile isDigit)

/-- Matcher for `^[+-]?\d+$` (the colon-form hour segment). -/
def isSignedInt (s : List Char) : Bool :=
  match s with
  | '+' :: r => isDigits1 r
  | '-' :: r => isDigits1 r
  | _ => isDigits1 s

/-- Matcher for `^[+-]?\d+(?:\.\d+)?$`, the strict unitless pattern of the
dispatcher's bare-millisecond branch. -/
def isUnitless (s : List Char) : Bool :=
  match s with
  | '+' :: r => isNumBody r
  | '-' :: r => isNumBody r
  | _ => isNumBody s

/-- The exact magnitude at which conversion of a decimal literal to an
IEEE-754 double overflows to infinity: 2^1024 - 2^970 (half an ulp above the
largest finite double, which rounds up to 2^1024 under ties-to-even). -/
def overflowThreshold : Rat :=
  ((2 ^ 1024 - 2 ^ 970 : Nat) : Rat)

/-- `Number.isFinite` applied to the double produced from a decimal literal
whose exact value is `q`: true exactly when the magnitude is below the
overflow threshold. -/
def jsFinite (q : Rat) : Bool :=
  decide (|q| < overflowThreshold)

/-- `Math.round` on an exact value: round to the nearest integer, ties toward
positive infinity. -/
def jsRound (q : Rat) : Int :=
  ⌊q + 1 / 2⌋

/-- `Math.round` on a JS number that may be NaN (`none`): `Math.round(NaN)`
is NaN. -/
def jsRoundN : Option Rat → Option Int
  | some q => some (jsRound q)
  | none => none

/-- `c.toLowerCase()` for the ASCII letters produced by the unit pattern. -/
def lowerStr (s : List Char) : List Char :=
  s.map Char.toLower

/-- The `UNIT_MS` table: canonical unit spellings and their millisecond
multipliers, in source order. -/
def UNIT_MS : List (List Char × Rat) :=
  [("ms".data, 1), ("millisecond".data, 1), ("milliseconds".data, 1),
   ("msec".data, 1), ("msecs".data, 1),
   ("s".data, 1000), ("sec".data, 1000), ("secs".data, 1000),
   ("second".data, 1000), ("seconds".data, 1000),
   ("m".data, 60000), ("min".data, 60000), ("mins".data, 60000),
   ("minute".data, 60000), ("minutes".data, 60000),
   ("h".data, 3600000), ("hr".data, 3600000), ("hrs".data, 3600000),
   ("hour".data, 3600000), ("hours".data, 3600000),
   ("d".data, 86400000), ("day".data, 86400000), ("days".data, 86400000)]

/-- Own-key lookup in the unit table: the millisecond multiplier of a
canonical spelling, or `none` when the spelling is not a key of the object
literal itself.  (The full property access `UNIT_MS[unit]`, which also sees
the prototype chain, is `unitProp` below.) -/
def unitMs (u : List Char) : Option Rat :=
  (UNIT_MS.find? (fun p => p.1 == u)).map (fun p => p.2)

/-- The value produced by the property access `UNIT_MS[unit]`: a millisecond
multiplier for an own key; the inherited, truthy, non-numeric
`Object.prototype.constructor` function for the text `constructor`; or
`undefined` (falsy) otherwise. -/
inductive PropValue
  | mult (q : Rat)
  | protoCtor
  | absent
deriving DecidableEq

/-- `UNIT_MS[unit]` as the source evaluates it: `UNIT_MS` is a plain object
literal, so property access falls through to `Object.prototype`.  The looked
up text is the lowercase form of an `[a-zA-Z]+` match, and `constructor` is
the only `Object.prototype` property whose name consists solely of lowercase
letters (the others, such as `toString`, `valueOf` or `hasOwnProperty`,
contain capitals or underscores), so it is the only reachable inherited key:
it is truthy, so `!msPer` does not throw, and multiplying a number by it
yields NaN. -/
def unitProp (u : List Char) : PropValue :=
  match unitMs u with
  | some q => .mult q
  | none => if u = "constructor".data then .protoCtor else .absent

/-- Modelled from the spec: `isDurationUnit` itself is not among the provided
source files (only the test file imports it from the package index).  Per the
spec it is a total, case-sensitive, non-trimming membership test over the
Unit Table's canonical keys. -/
def isDurationUnit (u : List Char) : Bool :=
  UNIT_MS.any (fun p => p.1 == u)

/-- The canonical unit spellings exactly as enumerated by the claim
(claimed to number 24). -/
def durationUnitSpellings : List (List Char) :=
  ["ms".data, "msec".data, "msecs".data, "millisecond".data,
   "milliseconds".data, "s".data, "sec".data, "secs".data, "second".data,
   "seconds".data, "m".data, "min".data, "mins".data, "minute".data,
   "minutes".data, "h".data, "hr".data, "hrs".data, "hour".data,
   "hours".data, "d".data, "day".data, "days".data]

/-- `s.split(':')`: split on every colon; n separators yield n+1 parts. -/
def splitColon : List Char → List (List Char)
  | [] => [[]]
  | c :: r =>
    if c = ':' then [] :: splitColon r
    else
      match splitColon r with
      | [] => [[c]]
      | p :: ps => (c :: p) :: ps

/-- The sign of the colon form, taken from `hStr.startsWith('-')`. -/
def colonSign (hStr : List Char) : Rat :=
  if hStr.head? = some '-' then -1 else 1

/-- The seconds magnitude of the colon form: value of the seconds segment
when present, otherwise 0. -/
def secondsVal : Option (List Char) → Rat
  | some t => parseNumBody t
  | none => 0

/-- Body of `parseColonTimeToMs` after splitting, applied to the trimmed
hour and minute segments and the optional trimmed seconds segment:
emptiness and pattern checks, finiteness and range checks, then
`Math.round((hours*3600000 + minutes*60000 + seconds*1000) * sign)`. -/
def colonCore (hStr mStr : List Char) (sStr : Option (List Char)) : Option Int :=
  if hStr.isEmpty || mStr.isEmpty then none
  else if !(isSignedInt hStr) then none
  else if !(isDigits1 mStr) then none
  else if (match sStr with | some t => !(isNumBody t) | none => false) then none
  else if !(jsFinite (|parseSigned hStr|) && jsFinite (parseNumBody mStr) &&
      jsFinite (secondsVal sStr)) then none
  else if parseNumBody mStr < 0 ∨ 60 ≤ parseNumBody mStr then none
  else if secondsVal sStr < 0 ∨ 60 ≤ secondsVal sStr then none
  else some (jsRound ((|parseSigned hStr| * 3600000 + parseNumBody mStr * 60000 +
    secondsVal sStr * 1000) * colonSign hStr))

/-- `parseColonTimeToMs`: split on colons, require exactly 2 or 3 parts,
trim each part, and delegate to `colonCore`. -/
def parseColonTimeToMs (s : List Char) : Option Int :=
  match splitColon s with
  | [p0, p1] => colonCore (trim p0) (trim p1) none
  | [p0, p1, p2] => colonCore (trim p0) (trim p1) (some (trim p2))
  | _ => none

/-- Fractional part of a token-number match: `(?:\.\d+)?` — a dot followed by
at least one digit, greedily, or nothing.  Returns the matched text and the
remaining input. -/
def matchFrac (s : List Char) : List Char × List Char :=
  match s with
  | '.' :: t =>
    if (t.takeWhile isDigit).isEmpty then ([], s)
    else ('.' :: t.takeWhile isDigit, t.dropWhile isDigit)
  | _ => ([], s)

/-- Unit part of a token match: `\s*([a-zA-Z]+)` — skip whitespace, then
require at least one letter, greedily.  Returns the matched unit text and the
remaining input. -/
def matchUnit (s : List Char) : Option (List Char × List Char) :=
  if ((s.dropWhile isWS).takeWhile isAlpha).isEmpty then none
  else some ((s.dropWhile isWS).takeWhile isAlpha, (s.dropWhile isWS).dropWhile isAlpha)

/-- Token match continuation after its first digit `d`: remaining digits,
optional fraction, whitespace, unit.  Returns (number text, unit text,
remaining input). -/
def matchNumTail (d : Char) (s : List Char) : Option (List Char × List Char × List Char) :=
  match matchUnit (matchFrac (s.dropWhile isDigit)).2 with
  | none => none
  | some (us, r) =>
    some (d :: s.takeWhile isDigit ++ (matchFrac (s.dropWhile isDigit)).1, us, r)

/-- Attempt to match `TOKEN_REG_EX = ([+-]?\d+(?:\.\d+)?)\s*([a-zA-Z]+)` at
the position starting with character `c` (followed by `rest`).  A leading
sign must be followed by a digit, else no match starts here (backtracking the
optional sign cannot help, since the sign character is not a digit). -/
def matchTokenAt (c : Char) (rest : List Char) : Option (List Char × List Char × List Char) :=
  if isDigit c then matchNumTail c rest
  else if c = '+' ∨ c = '-' then
    match rest with
    | [] => none
    | d :: r2 =>
      if isDigit d then
        match matchNumTail d r2 with
        | none => none
        | some (num, us, r) => some (c :: num, us, r)
      else none
  else none

/-- Fuelled scanner implementing both `trimmed.matchAll(TOKEN_REG_EX)` and
`trimmed.replace(TOKEN_REG_EX, '')`: walk left to right, at each position try
a match (leftmost semantics); on success record (number text, unit text) and
continue after the match, otherwise the character is unmatched residue.
A successful match always consumes at least its first character, so fuel
equal to the input length never runs out. -/
def scanAuxF : Nat → List Char → List (List Char × List Char) × List Char
  | _, [] => ([], [])
  | 0, c :: rest => ([], c :: rest)
  | fuel + 1, c :: rest =>
    match matchTokenAt c rest with
    | some (num, us, r) =>
      ((num, us) :: (scanAuxF fuel r).1, (scanAuxF fuel r).2)
    | none =>
      ((scanAuxF fuel rest).1, c :: (scanAuxF fuel rest).2)

/-- All token matches of the trimmed input together with the unmatched
residue characters. -/
def scanAux (s : List Char) : List (List Char × List Char) × List Char :=
  scanAuxF s.length s

/-- The classified failures of `parseDurationMs`; each constructor carries
the strings interpolated into the thrown message, with the original
untrimmed input last. -/
inductive PError
  | invalidColon (raw : List Char)
  | invalidNumberBare (raw : List Char)
  | invalidNumberTok (tok : List Char) (raw : List Char)
  | unknownUnit (unit : List Char) (raw : List Char)
  | noFullParse (raw : List Char)
deriving DecidableEq

/-- Whether a failure is one of the two defensive invalid-number messages. -/
def PError.isInvalidNum : PError → Bool
  | .invalidNumberBare _ => true
  | .invalidNumberTok _ _ => true
  | _ => false

/-- Whether a parse outcome is the invalid-number error. -/
def reportsInvalidNumber : Except PError (Option Int) → Bool
  | .error e => e.isInvalidNum
  | .ok _ => false

/-- The accumulation loop over the token matches: per token, finiteness
check, then the property access `UNIT_MS[unit]` on the lowercased unit text,
then `total += value * msPer`.  An undefined lookup (falsy) throws the
unknown-unit error; the inherited `constructor` property is truthy, so no
error is thrown, but multiplying by it yields NaN, which poisons the running
total for good (`none`).  The first failing token aborts the whole parse. -/
def accumGo (raw : List Char) (total : Option Rat) :
    List (List Char × List Char) → Except PError (Option Rat)
  | [] => .ok total
  | (num, us) :: rest =>
    if jsFinite (parseSigned num) then
      match unitProp (lowerStr us) with
      | .absent => .error (.unknownUnit us raw)
      | .protoCtor => accumGo raw none rest
      | .mult msPer => accumGo raw (total.map (fun t => t + parseSigned num * msPer)) rest
    else .error (.invalidNumberTok num raw)

/-- The exact token-list total: sum of value times multiplier over the
matches (0 for a missing unit, which `accumGo` rejects anyway). -/
def tokenSum : List (List Char × List Char) → Rat
  | [] => 0
  | t :: rest => parseSigned t.1 * ((unitMs (lowerStr t.2)).getD 0) + tokenSum rest

/-- `parseDurationMs`: trim; empty returns 0; a colon anywhere delegates to
the colon-time parser; the strict unitless pattern gives a bare millisecond
count; otherwise scan tokens, accumulate, and reject unmatched residue.
A returned `some n` is the integer result; a returned `none` is NaN, which
the token branch produces (via `Math.round(NaN)`) exactly when the inherited
`constructor` unit poisoned the total. -/
def parseDurationMs (raw : List Char) : Except PError (Option Int) :=
  if (trim raw).isEmpty then .ok (some 0)
  else if (trim raw).contains ':' then
    match parseColonTimeToMs (trim raw) with
    | none => .error (.invalidColon raw)
    | some ms => .ok (some ms)
  else if isUnitless (trim raw) then
    if jsFinite (parseSigned (trim raw)) then .ok (some (jsRound (parseSigned (trim raw))))
    else .error (.invalidNumberBare raw)
  else
    match accumGo raw (some 0) (scanAux (trim raw)).1 with
    | .error e => .error e
    | .ok total =>
      if (scanAux (trim raw)).1.isEmpty || !(trim ((scanAux (trim raw)).2)).isEmpty
      then .error (.noFullParse raw)
      else .ok (jsRoundN total)

/-- Claim-side characterization of a valid colon-form segment triple (after
per-segment trimming, which the spec's hour-segment wording allows): hour
matches `^[+-]?\d+$`; minutes match `^\d+$` with value below 60; the seconds
segment, when present, matches `^\d+(\.\d+)?$` with value below 60. -/
def colonSegsValid (h m : List Char) (s? : Option (List Char)) : Bool :=
  isSignedInt h && isDigits1 m && decide (parseNumBody m < 60) &&
    (match s? with
     | none => true
     | some t => isNumBody t && decide (parseNumBody t < 60))

/-- Claim-side characterization of a well-formed colon-form string: exactly
2 or 3 segments, each valid after trimming. -/
def validColonSpec (s : List Char) : Bool :=
  match splitColon s with
  | [p0, p1] => colonSegsValid (trim p0) (trim p1) none
  | [p0, p1, p2] => colonSegsValid (trim p0) (trim p1) (some (trim p2))
  | _ => false

/-- Counterexample input for the token-scanner claim: one matched token with
an unknown unit followed by non-whitespace residue. -/
def cxTokenJunk : List Char :=
  "1q 2".data

/-- Counterexample input: a single matched token whose value overflows a
double, with a known unit. -/
def cxTokenHuge : List Char :=
  ('4' :: List.replicate 309 '0') ++ ['h']

/-- Counterexample hour segment: 2 * 10^309, above the double range. -/
def cxHugeHours : List Char :=
  '2' :: List.replicate 309 '0'

/-- Counterexample input for the colon-value claim: overflowing hours. -/
def cxColonHuge : List Char :=
  cxHugeHours ++ (':' :: "30".data)

/-- Counterexample input for the unknown-unit claim: an overflowing value in
front of an unknown unit. -/
def cxUnknownHuge : List Char :=
  ('3' :: List.replicate 309 '0') ++ "zz".data

/-- Counterexample input for the invalid-number claim: a bare 10^309. -/
def cxBareHuge : List Char :=
  '1' :: List.replicate 309 '0'

/-- Counterexample input for the unitless claim: a bare -7 * 10^309. -/
def cxBareHugeNeg : List Char :=
  '-' :: '7' :: List.replicate 309 '0'

/-- A failing unitless-class input used by the empty-input claim. -/
def cxBareHdecide : List Char :=
  '8' :: List.replicate 309 '0'

/-- Counterexample input for the unknown-unit claim: the unit text lowercases
to `constructor`, which the property access finds on `Object.prototype`, so
the parse returns NaN instead of throwing. -/
def cxCtor : List Char :=
  "1constructor".data

/-! ### Character-class and string facts -/

theorem isDigit_not_ws {c : Char} (h : isDigit c = true) : isWS c = false := by
  simp only [isDigit, decide_eq_true_eq] at h
  simp only [isWS, decide_eq_false_iff_not]
  omega

theorem sign_dot_not_ws {c : Char} (h : c = '.' ∨ c = '+' ∨ c = '-') : isWS c = false := by
  rcases h with h | h | h <;> subst h <;> decide

theorem isDigit_ne_colon {c : Char} (h : isDigit c = true) : c ≠ ':' := by
  intro hrfl
  subst hrfl
  exact absurd h (by decide)

theorem sign_dot_ne_colon {c : Char} (h : c = '.' ∨ c = '+' ∨ c = '-') : c ≠ ':' := by
  rcases h with h | h | h <;> subst h <;> decide

theorem dropWhile_eq_self_of {p : Char → Bool} {s : List Char}
    (h : ∀ c ∈ s, p c = false) : s.dropWhile p = s := by
  cases s with
  | nil => rfl
  | cons a t => simp [List.dropWhile_cons, h a (by simp)]

theorem trim_eq_self {s : List Char} (h : ∀ c ∈ s, isWS c = false) : trim s = s := by
  unfold trim
  rw [dropWhile_eq_self_of h]
  rw [dropWhile_eq_self_of (fun c hc => h c (List.mem_reverse.mp hc))]
  exact List.reverse_reverse s

theorem contains_colon_false {s : List Char} (h : ∀ c ∈ s, c ≠ ':') :
    s.contains ':' = false := by
  cases hc : s.contains ':' with
  | false => rfl
  | true => exact absurd rfl (h ':' (List.elem_iff.mp hc))

theorem ne_nil_of_contains {s : List Char} (h : s.contains ':' = true) : s ≠ [] := by
  intro hrfl
  subst hrfl
  exact absurd h (by decide)

theorem isDigits1_mem {s : List Char} (h : isDigits1 s = true) :
    ∀ c ∈ s, isDigit c = true := by
  simp only [isDigits1, Bool.and_eq_true, List.all_eq_true] at h
  exact fun c hc => h.2 c hc

theorem isDigits1_ne_nil {s : List Char} (h : isDigits1 s = true) : s ≠ [] := by
  intro hrfl
  subst hrfl
  exact absurd h (by decide)

theorem numTailOK_mem {s : List Char} (h : numTailOK s = true) :
    ∀ c ∈ s, isDigit c = true ∨ c = '.' := by
  rw [numTailOK.eq_def] at h
  split at h
  · simp
  · intro c hc
    rcases List.mem_cons.mp hc with hc | hc
    · exact Or.inr hc
    · exact Or.inl (isDigits1_mem h c hc)
  · exact absurd h (by simp)

theorem isNumBody_mem {s : List Char} (h : isNumBody s = true) :
    ∀ c ∈ s, isDigit c = true ∨ c = '.' := by
  simp only [isNumBody, Bool.and_eq_true] at h
  intro c hc
  rw [← List.takeWhile_append_dropWhile (p := isDigit) (l := s)] at hc
  rcases List.mem_append.mp hc with hc | hc
  · exact Or.inl (List.mem_takeWhile_imp hc)
  · exact numTailOK_mem h.2 c hc

theorem isNumBody_ne_nil {s : List Char} (h : isNumBody s = true) : s ≠ [] := by
  intro hrfl
  subst hrfl
  exact absurd h (by decide)

theorem isSignedInt_mem {s : List Char} (h : isSignedInt s = true) :
    ∀ c ∈ s, isDigit c = true ∨ c = '+' ∨ c = '-' := by
  rw [isSignedInt.eq_def] at h
  split at h <;> intro c hc
  · rcases List.mem_cons.mp hc with hc | hc
    · exact Or.inr (Or.inl hc)
    · exact Or.inl (isDigits1_mem h c hc)
  · rcases List.mem_cons.mp hc with hc | hc
    · exact Or.inr (Or.inr hc)
    · exact Or.inl (isDigits1_mem h c hc)
  · exact Or.inl (isDigits1_mem h c hc)

theorem isSignedInt_ne_nil {s : List Char} (h : isSignedInt s = true) : s ≠ [] := by
  intro hrfl
  subst hrfl
  exact absurd h (by decide)

theorem isUnitless_mem {s : List Char} (h : isUnitless s = true) :
    ∀ c ∈ s, isDigit c = true ∨ c = '.' ∨ c = '+' ∨ c = '-' := by
  rw [isUnitless.eq_def] at h
  split at h <;> intro c hc
  · rcases List.mem_cons.mp hc with hc | hc
    · exact Or.inr (Or.inr (Or.inl hc))
    · rcases isNumBody_mem h c hc with hd | hd
      · exact Or.inl hd
      · exact Or.inr (Or.inl hd)
  · rcases List.mem_cons.mp hc with hc | hc
    · exact Or.inr (Or.inr (Or.inr hc))
    · rcases isNumBody_mem h c hc with hd | hd
      · exact Or.inl hd
      · exact Or.inr (Or.inl hd)
  · rcases isNumBody_mem h c hc with hd | hd
    · exact Or.inl hd
    · exact Or.inr (Or.inl hd)

theorem isUnitless_ne_nil {s : List Char} (h : isUnitless s = true) : s ≠ [] := by
  intro hrfl
  subst hrfl
  exact absurd h (by decide)

theorem isUnitless_no_colon {s : List Char} (h : isUnitless s = true) :
    s.contains ':' = false := by
  refine contains_colon_false (fun c hc => ?_)
  rcases isUnitless_mem h c hc with hd | hd
  · exact isDigit_ne_colon hd
  · exact sign_dot_ne_colon hd

theorem trim_of_isSignedInt {s : List Char} (h : isSignedInt s = true) : trim s = s := by
  refine trim_eq_self (fun c hc => ?_)
  rcases isSignedInt_mem h c hc with hd | hd
  · exact isDigit_not_ws hd
  · exact sign_dot_not_ws (Or.inr hd)

theorem trim_of_isDigits1 {s : List Char} (h : isDigits1 s = true) : trim s = s :=
  trim_eq_self (fun c hc => isDigit_not_ws (isDigits1_mem h c hc))

theorem trim_of_isNumBody {s : List Char} (h : isNumBody s = true) : trim s = s := by
  refine trim_eq_self (fun c hc => ?_)
  rcases isNumBody_mem h c hc with hd | hd
  · exact isDigit_not_ws hd
  · exact sign_dot_not_ws (Or.inl hd)

/-! ### Numeric facts -/

theorem fracVal_nonneg (s : List Char) : 0 ≤ fracVal s := by
  rw [fracVal.eq_def]
  split
  · positivity
  · exact le_refl 0

theorem parseNumBody_nonneg (s : List Char) : 0 ≤ parseNumBody s := by
  unfold parseNumBody
  have h := fracVal_nonneg (s.dropWhile isDigit)
  positivity

set_option maxRecDepth 100000 in
theorem sixty_lt_threshold : (60 : Rat) < overflowThreshold := by
  with_unfolding_all exact of_decide_eq_true rfl

theorem jsFinite_abs (q : Rat) : jsFinite (|q|) = jsFinite q := by
  simp [jsFinite, abs_abs]

theorem jsFinite_of_nonneg_lt60 {q : Rat} (h0 : 0 ≤ q) (h : q < 60) :
    jsFinite q = true := by
  simp only [jsFinite, decide_eq_true_eq, abs_of_nonneg h0]
  exact lt_trans h sixty_lt_threshold

/-! ### The accumulation loop -/

theorem accumGo_ok (raw : List Char) : ∀ (ms : List (List Char × List Char)) (total : Rat),
    (∀ t ∈ ms, (unitMs (lowerStr t.2)).isSome = true ∧ jsFinite (parseSigned t.1) = true) →
    accumGo raw (some total) ms = .ok (some (total + tokenSum ms)) := by
  intro ms
  induction ms with
  | nil => intro total _; simp [accumGo, tokenSum]
  | cons t rest ih =>
    intro total h
    obtain ⟨hsome, hfin⟩ := h t (by simp)
    obtain ⟨v, hv⟩ := Option.isSome_iff_exists.mp hsome
    obtain ⟨num, us⟩ := t
    simp only [accumGo, hfin, if_true, unitProp, hv, Option.map_some']
    rw [ih (total + parseSigned num * v) (fun x hx => h x (by simp [hx]))]
    simp only [tokenSum, hv, Option.getD_some]
    ring_nf

theorem accumGo_unknown (raw : List Char) :
    ∀ (pre : List (List Char × List Char)) (total : Option Rat) (n u : List Char)
      (rest : List (List Char × List Char)),
    (∀ t ∈ pre, (unitMs (lowerStr t.2)).isSome = true ∧ jsFinite (parseSigned t.1) = true) →
    jsFinite (parseSigned n) = true → unitMs (lowerStr u) = none →
    lowerStr u ≠ "constructor".data →
    accumGo raw total (pre ++ (n, u) :: rest) = .error (.unknownUnit u raw) := by
  intro pre
  induction pre with
  | nil =>
    intro total n u rest _ hfin hunk hctor
    simp only [List.nil_append, accumGo, hfin, if_true, unitProp, hunk, if_neg hctor]
  | cons t pres ih =>
    intro total n u rest h hfin hunk hctor
    obtain ⟨hsome, htfin⟩ := h t (by simp)
    obtain ⟨v, hv⟩ := Option.isSome_iff_exists.mp hsome
    obtain ⟨num, us⟩ := t
    simp only [List.cons_append, accumGo, htfin, if_true, unitProp, hv]
    exact ih _ n u rest (fun x hx => h x (by simp [hx])) hfin hunk hctor

theorem accumGo_no_invalidNum (raw : List Char) :
    ∀ (ms : List (List Char × List Char)) (total : Option Rat),
    (∀ t ∈ ms, jsFinite (parseSigned t.1) = true) →
    ∀ e, accumGo raw total ms = .error e → e.isInvalidNum = false := by
  intro ms
  induction ms with
  | nil => intro total _ e he; exact absurd he (by simp [accumGo])
  | cons t rest ih =>
    intro total h e he
    obtain ⟨num, us⟩ := t
    have hfin : jsFinite (parseSigned num) = true := h (num, us) (by simp)
    simp only [accumGo, hfin, if_true] at he
    cases hv : unitProp (lowerStr us) with
    | absent =>
      simp only [hv, Except.error.injEq] at he
      subst he
      rfl
    | protoCtor =>
      simp only [hv] at he
      exact ih _ (fun x hx => h x (by simp [hx])) e he
    | mult v =>
      simp only [hv] at he
      exact ih _ (fun x hx => h x (by simp [hx])) e he

/-! ### Branch lemmas for the dispatcher -/

theorem parse_of_trim_nil {raw : List Char} (h : trim raw = []) :
    parseDurationMs raw = .ok (some 0) := by
  unfold parseDurationMs
  simp [h]

theorem parse_colon_branch {raw : List Char} (hc : (trim raw).contains ':' = true) :
    parseDurationMs raw =
      (match parseColonTimeToMs (trim raw) with
       | none => Except.error (.invalidColon raw)
       | some v => Except.ok (some v)) := by
  have hne : trim raw ≠ [] := ne_nil_of_contains hc
  have h1 : ¬ ((trim raw).isEmpty = true) := by
    simp only [List.isEmpty_eq_true]
    exact hne
  unfold parseDurationMs
  rw [if_neg h1, if_pos hc]

theorem parse_unitless_branch {raw : List Char} (hu : isUnitless (trim raw) = true) :
    parseDurationMs raw =
      (if jsFinite (parseSigned (trim raw)) then
        Except.ok (some (jsRound (parseSigned (trim raw))))
       else Except.error (.invalidNumberBare raw)) := by
  have hne := isUnitless_ne_nil hu
  have hc := isUnitless_no_colon hu
  have h1 : ¬ ((trim raw).isEmpty = true) := by
    simp only [List.isEmpty_eq_true]
    exact hne
  have h2 : ¬ ((trim raw).contains ':' = true) := by
    rw [hc]
    exact Bool.false_ne_true
  unfold parseDurationMs
  rw [if_neg h1, if_neg h2, if_pos hu]

theorem parse_token_branch {raw : List Char} {ms : List (List Char × List Char)}
    {un : List Char} (hne : trim raw ≠ []) (hc : (trim raw).contains ':' = false)
    (hu : isUnitless (trim raw) = false) (hscan : scanAux (trim raw) = (ms, un)) :
    parseDurationMs raw =
      (match accumGo raw (some 0) ms with
       | .error e => Except.error e
       | .ok total =>
         if ms.isEmpty || !(trim un).isEmpty then Except.error (.noFullParse raw)
         else Except.ok (jsRoundN total)) := by
  have h1 : ¬ ((trim raw).isEmpty = true) := by
    simp only [List.isEmpty_eq_true]
    exact hne
  have h2 : ¬ ((trim raw).contains ':' = true) := by
    rw [hc]
    exact Bool.false_ne_true
  have h3 : ¬ (isUnitless (trim raw) = true) := by
    rw [hu]
    exact Bool.false_ne_true
  unfold parseDurationMs
  rw [if_neg h1, if_neg h2, if_neg h3, hscan]

/-! ### Claim theorems -/

set_option maxRecDepth 100000

/-- C9: for every string whose trimmed form is empty — including the empty
string and all whitespace-only strings — `parseDurationMs` returns 0 and
never raises; and it is the only dispatch class that can never fail: the
colon class, the token class and the unitless class each contain a failing
input (the last one only via double overflow). -/
theorem empty_input_zero (raw : List Char) :
    (trim raw = [] → parseDurationMs raw = .ok (some 0))
    ∧ parseDurationMs (":".data) = .error (.invalidColon (":".data))
    ∧ parseDurationMs ("abc".data) = .error (.noFullParse ("abc".data))
    ∧ parseDurationMs cxBareHdecide = .error (.invalidNumberBare cxBareHdecide) := by
  refine ⟨fun h => parse_of_trim_nil h, ?_, ?_, ?_⟩
  · with_unfolding_all rfl
  · with_unfolding_all rfl
  · with_unfolding_all rfl

/-- C9 witness: a whitespace-only input returns 0, via `empty_input_zero`. -/
theorem empty_input_zero_witness : parseDurationMs ("  \t\n".data) = .ok (some 0) :=
  (empty_input_zero ("  \t\n".data)).1 (by with_unfolding_all rfl)

/-- C10: the colon parser's range check applies to the unrounded seconds
value, so "00:00:59.9999" is accepted (59.9999 < 60) and rounds up to a full
minute, 60000, the same value as "00:01:00". -/
theorem colon_seconds_roundup :
    parseDurationMs ("00:00:59.9999".data) = .ok (some 60000)
    ∧ parseDurationMs ("00:01:00".data) = .ok (some 60000)
    ∧ parseNumBody ("59.9999".data) < 60 := by
  refine ⟨?_, ?_, ?_⟩
  · with_unfolding_all rfl
  · with_unfolding_all rfl
  · with_unfolding_all exact of_decide_eq_true rfl

/-- C4: rounding is round-half-toward-positive-infinity: `jsRound q = n` iff
q lies in the half-open interval from n - 1/2 (inclusive) to n + 1/2
(exclusive), making the result the integer nearest to q (never further than
1/2) with exact .5 ties rounding upward regardless of sign; concretely
2.5 rounds to 3, -2.5 rounds to -2, "0.5ms" gives 1 and "-0.5ms" gives a
value numerically equal to 0. -/
theorem rounding_policy :
    (∀ (q : Rat) (n : Int), jsRound q = n ↔ (n : Rat) - 1 / 2 ≤ q ∧ q < (n : Rat) + 1 / 2)
    ∧ (∀ q : Rat, |q - (jsRound q : Rat)| ≤ 1 / 2)
    ∧ jsRound (5 / 2) = 3 ∧ jsRound (-(5 / 2)) = -2
    ∧ parseDurationMs ("0.5ms".data) = .ok (some 1)
    ∧ parseDurationMs ("-0.5ms".data) = .ok (some 0) := by
  refine ⟨?_, ?_, ?_, ?_, ?_, ?_⟩
  · intro q n
    rw [jsRound, Int.floor_eq_iff]
    constructor
    · rintro ⟨h1, h2⟩
      constructor <;> linarith
    · rintro ⟨h1, h2⟩
      constructor <;> linarith
  · intro q
    have h1 : ((⌊q + 1 / 2⌋ : Int) : Rat) ≤ q + 1 / 2 := Int.floor_le _
    have h2 : q + 1 / 2 < (⌊q + 1 / 2⌋ : Rat) + 1 := Int.lt_floor_add_one _
    rw [jsRound, abs_le]
    constructor <;> linarith
  · with_unfolding_all exact of_decide_eq_true rfl
  · with_unfolding_all exact of_decide_eq_true rfl
  · with_unfolding_all rfl
  · with_unfolding_all rfl

/-- C4 witness: the characterization applied at the concrete tie 7/2,
which rounds up to 4. -/
theorem rounding_policy_witness : jsRound (7 / 2) = 4 :=
  (rounding_policy.1 (7 / 2) 4).mpr (by constructor <;> norm_num)

theorem any_key_mem (l : List (List Char × Rat)) (u : List Char) :
    l.any (fun p => p.1 == u) = true ↔ u ∈ l.map (fun p => p.1) := by
  induction l with
  | nil => simp
  | cons a t ih =>
    simp only [List.any_cons, Bool.or_eq_true, beq_iff_eq, List.map_cons, List.mem_cons, ih]
    constructor
    · rintro (h | h)
      · exact Or.inl h.symm
      · exact Or.inr h
    · rintro (h | h)
      · exact Or.inl h.symm
      · exact Or.inr h

/-- C7: `isDurationUnit` is a total function returning true exactly on the
canonical lowercase spellings enumerated by the claim (no case folding, no
trimming, so capitalization variants, the empty string and unknown text all
yield false).  Note `isDurationUnit_count_cx`: the enumerated spellings
number 23, not 24 as the claim says. -/
theorem isDurationUnit_canonical (u : List Char) :
    isDurationUnit u = true ↔ u ∈ durationUnitSpellings := by
  rw [isDurationUnit, any_key_mem]
  have hp : (UNIT_MS.map (fun p => p.1)).Perm durationUnitSpellings := by decide
  exact hp.mem_iff

/-- C7 witness: the characterization applied at the canonical spelling
"hours". -/
theorem isDurationUnit_canonical_witness : isDurationUnit ("hours".data) = true :=
  (isDurationUnit_canonical ("hours".data)).mpr (by decide)

/-- C7 counterexample: the canonical spellings enumerated by the claim are
23 pairwise-distinct strings, all accepted by `isDurationUnit`; there is no
24th spelling, refuting the claim's count of 24. -/
theorem isDurationUnit_count_cx :
    durationUnitSpellings.length = 23 ∧ durationUnitSpellings.Nodup
    ∧ durationUnitSpellings.all isDurationUnit = true
    ∧ durationUnitSpellings.length ≠ 24 := by
  refine ⟨by decide, by decide, by decide, by decide⟩

/-- C8 (amended): an input whose trimmed form matches the strict unitless
pattern and whose exact value is below the double-overflow threshold returns
round(value); the bare texts "Infinity", "-Infinity" and "NaN" do not match
the pattern and are rejected with the could-not-fully-parse error. -/
theorem unitless_fast_path (raw : List Char) :
    (isUnitless (trim raw) = true → jsFinite (parseSigned (trim raw)) = true →
      parseDurationMs raw = .ok (some (jsRound (parseSigned (trim raw)))))
    ∧ parseDurationMs ("Infinity".data) = .error (.noFullParse ("Infinity".data))
    ∧ parseDurationMs ("-Infinity".data) = .error (.noFullParse ("-Infinity".data))
    ∧ parseDurationMs ("NaN".data) = .error (.noFullParse ("NaN".data)) := by
  refine ⟨fun hu hf => ?_, ?_, ?_, ?_⟩
  · rw [parse_unitless_branch hu, if_pos hf]
  · with_unfolding_all rfl
  · with_unfolding_all rfl
  · with_unfolding_all rfl

/-- C8 witness: "1500" parses to 1500, via `unitless_fast_path`. -/
theorem unitless_fast_path_witness : parseDurationMs ("1500".data) = .ok (some 1500) := by
  have h := (unitless_fast_path ("1500".data)).1
    (by with_unfolding_all rfl) (by with_unfolding_all rfl)
  exact h.trans (by with_unfolding_all rfl)

/-- C8 counterexample: the bare numeral -7 * 10^309 matches the strict
unitless pattern in its entirety, yet `parseDurationMs` raises the
invalid-number error (the literal overflows a double) instead of returning
round(value) as the claim states. -/
theorem unitless_fast_path_cx :
    isUnitless (trim cxBareHugeNeg) = true
    ∧ parseDurationMs cxBareHugeNeg = .error (.invalidNumberBare cxBareHugeNeg)
    ∧ parseDurationMs cxBareHugeNeg ≠ .ok (some (jsRound (parseSigned (trim cxBareHugeNeg)))) := by
  refine ⟨by decide, by with_unfolding_all rfl, fun h => ?_⟩
  rw [(by with_unfolding_all rfl :
    parseDurationMs cxBareHugeNeg = .error (.invalidNumberBare cxBareHugeNeg))] at h
  exact Except.noConfusion h

/-- C6 (amended): the defensive invalid-number branches fire only on double
overflow: for every input whose unitless literal (when the unitless branch is
taken) and token-number literals are all below the overflow threshold
2^1024 - 2^970, `parseDurationMs` never produces the invalid-number error;
`invalid_number_unreachable_cx` shows the branch is reachable at a 310-digit
literal, refuting the claim's unconditional unreachability. -/
theorem invalid_number_unreachable (raw : List Char)
    (hu : isUnitless (trim raw) = true → jsFinite (parseSigned (trim raw)) = true)
    (ht : ∀ t ∈ (scanAux (trim raw)).1, jsFinite (parseSigned t.1) = true) :
    reportsInvalidNumber (parseDurationMs raw) = false := by
  by_cases hnil : trim raw = []
  · rw [parse_of_trim_nil hnil]
    rfl
  by_cases hc : (trim raw).contains ':' = true
  · rw [parse_colon_branch hc]
    cases parseColonTimeToMs (trim raw) <;> rfl
  have hcf : (trim raw).contains ':' = false := by
    cases h : (trim raw).contains ':'
    · rfl
    · exact absurd h hc
  by_cases hul : isUnitless (trim raw) = true
  · rw [parse_unitless_branch hul, if_pos (hu hul)]
    rfl
  have hulf : isUnitless (trim raw) = false := by
    cases h : isUnitless (trim raw)
    · rfl
    · exact absurd h hul
  rcases hp : scanAux (trim raw) with ⟨ms, un⟩
  rw [hp] at ht
  rw [parse_token_branch hnil hcf hulf hp]
  cases hacc : accumGo raw (some 0) ms with
  | error e =>
    simp only [hacc]
    exact accumGo_no_invalidNum raw ms (some 0) (fun t htm => ht t htm) e hacc
  | ok total =>
    simp only [hacc]
    split <;> rfl

/-- C6 witness: the guard theorem applied at "1h", whose single token has a
finite value, so no invalid-number error is produced. -/
theorem invalid_number_unreachable_witness :
    reportsInvalidNumber (parseDurationMs ("1h".data)) = false :=
  invalid_number_unreachable ("1h".data) (by decide)
    (of_decide_eq_true (by with_unfolding_all rfl))

/-- C6 counterexample: the 310-digit bare literal 10^309 overflows a double,
so `parseDurationMs` does produce the invalid-number error, refuting the
claim that the branch is unreachable for every input string. -/
theorem invalid_number_unreachable_cx :
    parseDurationMs cxBareHuge = .error (.invalidNumberBare cxBareHuge)
    ∧ reportsInvalidNumber (parseDurationMs cxBareHuge) = true := by
  constructor
  · with_unfolding_all rfl
  · with_unfolding_all rfl

/-- C1 (amended): for inputs routed to the token scanner, if the leftmost
non-overlapping token matches cover every non-whitespace character, every
token's lowercased unit is canonical and every token's value is below the
double-overflow threshold, the result is round of the sum of value times
multiplier, each sign applying to its own token and rounding applied once to
the total; and the parse fails with the could-not-fully-parse error when no
token matches at all, or when non-whitespace residue remains while all
matched tokens have canonical units and below-threshold values (an
unknown-unit or overflowing token instead fails with its own error, see
`token_scanner_contract_cx`). -/
theorem token_scanner_contract (raw : List Char) (ms : List (List Char × List Char))
    (un : List Char) (hne : trim raw ≠ [])
    (hnc : (trim raw).contains ':' = false) (hnu : isUnitless (trim raw) = false)
    (hscan : scanAux (trim raw) = (ms, un)) :
    ((∀ t ∈ ms, (unitMs (lowerStr t.2)).isSome = true ∧ jsFinite (parseSigned t.1) = true) →
      ms ≠ [] → trim un = [] →
      parseDurationMs raw = .ok (some (jsRound (tokenSum ms))))
    ∧ ((ms = [] ∨ ((∀ t ∈ ms, (unitMs (lowerStr t.2)).isSome = true ∧
          jsFinite (parseSigned t.1) = true) ∧ trim un ≠ [])) →
      parseDurationMs raw = .error (.noFullParse raw)) := by
  constructor
  · intro hall hms hcov
    rw [parse_token_branch hne hnc hnu hscan, accumGo_ok raw ms 0 hall]
    -- the junk test is false, and Math.round of the finite total is some

    have h1 : ms.isEmpty = false := by
      cases ms
      · exact absurd rfl hms
      · rfl
    have h2 : (trim un).isEmpty = true := by
      rw [hcov]
      rfl
    simp [h1, h2, jsRoundN]
  · intro hcase
    rw [parse_token_branch hne hnc hnu hscan]
    rcases hcase with hnil | ⟨hall, hun⟩
    · subst hnil
      simp [accumGo]
    · rw [accumGo_ok raw ms 0 hall]
      have h2 : (trim un).isEmpty = false := by
        cases h : trim un
        · exact absurd h hun
        · rfl
      simp [h2]

/-- C1 witness: the contract applied at "1h -30m", whose two tokens cover
the trimmed input and sum to 1800000 before the single rounding. -/
theorem token_scanner_contract_witness :
    parseDurationMs ("1h -30m".data) = .ok (some 1800000) := by
  have h := (token_scanner_contract ("1h -30m".data)
      [("1".data, "h".data), ("-30".data, "m".data)] ([' '])
      (by decide) (by decide) (by decide) (by decide)).1
      (of_decide_eq_true (by with_unfolding_all rfl)) (by decide) (by decide)
  exact h.trans (by with_unfolding_all rfl)

/-- C1 counterexample: two refutations of the claim as stated.  First,
"1q 2" leaves the non-whitespace residue "2" after removing matched spans,
yet fails with the unknown-unit error rather than could-not-fully-parse.
Second, a 310-digit value with the known unit h is a token list whose
matches cover the whole input with a canonical unit, yet it fails with the
invalid-number error instead of returning round of the sum. -/
theorem token_scanner_contract_cx :
    (trim ((scanAux (trim cxTokenJunk)).2) ≠ []
      ∧ parseDurationMs cxTokenJunk = .error (.unknownUnit ("q".data) cxTokenJunk)
      ∧ parseDurationMs cxTokenJunk ≠ .error (.noFullParse cxTokenJunk))
    ∧ ((scanAux (trim cxTokenHuge)).2 = []
      ∧ (∀ t ∈ (scanAux (trim cxTokenHuge)).1, (unitMs (lowerStr t.2)).isSome = true)
      ∧ parseDurationMs cxTokenHuge =
          .error (.invalidNumberTok ('4' :: List.replicate 309 '0') cxTokenHuge)
      ∧ ∀ v : Option Int, parseDurationMs cxTokenHuge ≠ .ok v) := by
  refine ⟨⟨by decide, by with_unfolding_all rfl, fun h => ?_⟩,
    by decide, by decide, by with_unfolding_all rfl, fun v h => ?_⟩
  · rw [(by with_unfolding_all rfl :
      parseDurationMs cxTokenJunk = .error (.unknownUnit ("q".data) cxTokenJunk))] at h
    injection h with h2
    exact PError.noConfusion h2
  · rw [(by with_unfolding_all rfl : parseDurationMs cxTokenHuge =
      .error (.invalidNumberTok ('4' :: List.replicate 309 '0') cxTokenHuge))] at h
    exact Except.noConfusion h

/-- C5 (amended): during token scanning, if the leftmost token with a
non-canonical lowercased unit is preceded only by tokens with canonical
units and below-threshold values, its own value is below the
double-overflow threshold, and its lowercased unit text is not
`constructor`, then the parse fails with the unknown-unit error naming that
token's unit in its original spelling together with the original untrimmed
input, and never returns a value.  Both extra conditions are forced: an
overflowing value at or before that token instead fails with the
invalid-number error, and the unit text `constructor` is found on
`Object.prototype` by the property access, so the loop silently turns the
total into NaN and the parse returns NaN — see `unknown_unit_reported_cx`. -/
theorem unknown_unit_reported (raw : List Char) (pre rest : List (List Char × List Char))
    (n u : List Char) (hne : trim raw ≠ [])
    (hnc : (trim raw).contains ':' = false) (hnu : isUnitless (trim raw) = false)
    (hsplit : (scanAux (trim raw)).1 = pre ++ (n, u) :: rest)
    (hpre : ∀ t ∈ pre, (unitMs (lowerStr t.2)).isSome = true ∧ jsFinite (parseSigned t.1) = true)
    (hfin : jsFinite (parseSigned n) = true)
    (hunk : unitMs (lowerStr u) = none)
    (hctor : lowerStr u ≠ "constructor".data) :
    parseDurationMs raw = .error (.unknownUnit u raw)
    ∧ ∀ v : Option Int, parseDurationMs raw ≠ .ok v := by
  rcases hp : scanAux (trim raw) with ⟨ms, un⟩
  rw [hp] at hsplit
  have hparse : parseDurationMs raw = .error (.unknownUnit u raw) := by
    rw [parse_token_branch hne hnc hnu hp]
    have : ms = pre ++ (n, u) :: rest := hsplit
    subst this
    rw [accumGo_unknown raw pre (some 0) n u rest hpre hfin hunk hctor]
  refine ⟨hparse, fun v hv => ?_⟩
  rw [hparse] at hv
  exact Except.noConfusion hv

/-- C5 witness: "10 XYZ" fails with unknown unit "XYZ" (original spelling)
in "10 XYZ", via `unknown_unit_reported`. -/
theorem unknown_unit_reported_witness :
    parseDurationMs ("10 XYZ".data) = .error (.unknownUnit ("XYZ".data) ("10 XYZ".data)) :=
  (unknown_unit_reported ("10 XYZ".data) [] [] ("10".data) ("XYZ".data)
    (by decide) (by decide) (by decide) (by decide)
    (by simp) (of_decide_eq_true (by with_unfolding_all rfl)) (by decide) (by decide)).1

/-- C5 counterexample: two refutations of the claim as stated.  First, the
token list 3*10^309 followed by the unknown unit zz has a matched token
whose lowercased unit is not canonical, yet the parse fails with the
invalid-number error (the value overflows a double before the unit is
looked up), not with the unknown-unit error.  Second, "1constructor" has a
matched token whose lowercased unit text `constructor` is not canonical,
yet the parse neither raises the unknown-unit error nor fails at all: the
property access finds the inherited truthy `Object.prototype.constructor`,
the multiplication poisons the total, and the parse returns NaN. -/
theorem unknown_unit_reported_cx :
    ((scanAux (trim cxUnknownHuge)).1 = [(('3' :: List.replicate 309 '0'), "zz".data)]
    ∧ unitMs (lowerStr ("zz".data)) = none
    ∧ parseDurationMs cxUnknownHuge =
        .error (.invalidNumberTok ('3' :: List.replicate 309 '0') cxUnknownHuge)
    ∧ parseDurationMs cxUnknownHuge ≠ .error (.unknownUnit ("zz".data) cxUnknownHuge))
    ∧ ((scanAux (trim cxCtor)).1 = [("1".data, "constructor".data)]
    ∧ (scanAux (trim cxCtor)).2 = []
    ∧ unitMs (lowerStr ("constructor".data)) = none
    ∧ parseDurationMs cxCtor = .ok none
    ∧ parseDurationMs cxCtor ≠ .error (.unknownUnit ("constructor".data) cxCtor)) := by
  refine ⟨⟨by decide, by decide, by with_unfolding_all rfl, fun h => ?_⟩,
    by decide, by decide, by decide, by with_unfolding_all rfl, fun h => ?_⟩
  · rw [(by with_unfolding_all rfl : parseDurationMs cxUnknownHuge =
      .error (.invalidNumberTok ('3' :: List.replicate 309 '0') cxUnknownHuge))] at h
    injection h with h2
    exact PError.noConfusion h2
  · rw [(by with_unfolding_all rfl : parseDurationMs cxCtor = .ok none)] at h
    exact Except.noConfusion h

/-! ### Colon-form lemmas -/

theorem colonSegsValid_core_none {h m : List Char} {s? : Option (List Char)}
    (hv : colonSegsValid h m s? = false) : colonCore h m s? = none := by
  unfold colonCore
  split_ifs with h1 h2 h3 h4 h5 h6 h7
  any_goals rfl
  exfalso
  have hh : isSignedInt h = true := by
    cases hx : isSignedInt h
    · rw [hx] at h2
      exact absurd rfl h2
    · rfl
  have hm : isDigits1 m = true := by
    cases hx : isDigits1 m
    · rw [hx] at h3
      exact absurd rfl h3
    · rfl
  have hmr : parseNumBody m < 60 := by
    rcases lt_or_le (parseNumBody m) 60 with hx | hx
    · exact hx
    · exact absurd (Or.inr hx) h6
  cases s? with
  | none =>
    simp [colonSegsValid, hh, hm, hmr] at hv
  | some t =>
    have h4x : ¬ ((!(isNumBody t)) = true) := h4
    have hnb : isNumBody t = true := by
      cases hx : isNumBody t
      · rw [hx] at h4x
        exact absurd rfl h4x
      · rfl
    have htr : parseNumBody t < 60 := by
      rcases lt_or_le (parseNumBody t) 60 with hx | hx
      · exact hx
      · exact absurd (Or.inr hx) h7
    simp [colonSegsValid, hh, hm, hmr, hnb, htr] at hv

theorem parseColon_none_of_invalid {s : List Char} (hv : validColonSpec s = false) :
    parseColonTimeToMs s = none := by
  unfold validColonSpec at hv
  unfold parseColonTimeToMs
  rcases hsp : splitColon s with _ | ⟨p0, _ | ⟨p1, _ | ⟨p2, _ | ⟨p3, tail⟩⟩⟩⟩ <;>
    rw [hsp] at hv <;> try rfl
  · exact colonSegsValid_core_none hv
  · exact colonSegsValid_core_none hv

/-- C3: a colon anywhere in the trimmed input makes the colon-time parser
decide the whole outcome (the token-list and unitless interpretations are
never attempted), and whenever the string does not split into exactly 2 or 3
segments that each satisfy their pattern and range checks (per-segment
trimming allowed), the parse fails with the uniform invalid-colon error
embedding the original untrimmed input. -/
theorem colon_dispatch (raw : List Char) (hc : (trim raw).contains ':' = true) :
    parseDurationMs raw =
      (match parseColonTimeToMs (trim raw) with
       | none => Except.error (.invalidColon raw)
       | some v => Except.ok (some v))
    ∧ (validColonSpec (trim raw) = false →
        parseDurationMs raw = .error (.invalidColon raw)) := by
  refine ⟨parse_colon_branch hc, fun hv => ?_⟩
  rw [parse_colon_branch hc, parseColon_none_of_invalid hv]

/-- C3 witness: "1:30h" is dispatched to the colon parser and fails as a
malformed clock time (not as a token list), via `colon_dispatch`. -/
theorem colon_dispatch_witness :
    parseDurationMs ("1:30h".data) = .error (.invalidColon ("1:30h".data)) :=
  (colon_dispatch ("1:30h".data) (by decide)).2 (by decide)

theorem jsFinite_zero : jsFinite 0 = true :=
  jsFinite_of_nonneg_lt60 le_rfl (by norm_num)

theorem colonCore_value_none {h m : List Char}
    (hh : isSignedInt h = true) (hm : isDigits1 m = true) (hmr : parseNumBody m < 60)
    (hfin : jsFinite (parseSigned h) = true) :
    colonCore h m none = some (jsRound ((|parseSigned h| * 3600000 +
      parseNumBody m * 60000 + secondsVal none * 1000) * colonSign h)) := by
  unfold colonCore
  split_ifs with h1 h2 h3 h4 h5 h6 h7
  · exfalso
    rcases Bool.or_eq_true_iff.mp h1 with he | he
    · exact absurd (List.isEmpty_eq_true.mp he) (isSignedInt_ne_nil hh)
    · exact absurd (List.isEmpty_eq_true.mp he) (isDigits1_ne_nil hm)
  · rw [hh] at h2
    exact absurd h2 (by decide)
  · rw [hm] at h3
    exact absurd h3 (by decide)
  · exact absurd h4 (by decide)
  · exfalso
    have hf1 : jsFinite (|parseSigned h|) = true := by rw [jsFinite_abs]; exact hfin
    have hf2 : jsFinite (parseNumBody m) = true :=
      jsFinite_of_nonneg_lt60 (parseNumBody_nonneg m) hmr
    simp [hf1, hf2, jsFinite_zero, secondsVal] at h5
  · exfalso
    rcases h6 with hx | hx
    · exact absurd hx (not_lt.mpr (parseNumBody_nonneg m))
    · exact absurd hx (not_le.mpr hmr)
  · exfalso
    rcases h7 with hx | hx <;> norm_num [secondsVal] at hx
  · rfl

theorem colonCore_value_some {h m t : List Char}
    (hh : isSignedInt h = true) (hm : isDigits1 m = true) (hmr : parseNumBody m < 60)
    (ht : isNumBody t = true) (htr : parseNumBody t < 60)
    (hfin : jsFinite (parseSigned h) = true) :
    colonCore h m (some t) = some (jsRound ((|parseSigned h| * 3600000 +
      parseNumBody m * 60000 + secondsVal (some t) * 1000) * colonSign h)) := by
  unfold colonCore
  split_ifs with h1 h2 h3 h4 h5 h6 h7
  · exfalso
    rcases Bool.or_eq_true_iff.mp h1 with he | he
    · exact absurd (List.isEmpty_eq_true.mp he) (isSignedInt_ne_nil hh)
    · exact absurd (List.isEmpty_eq_true.mp he) (isDigits1_ne_nil hm)
  · rw [hh] at h2
    exact absurd h2 (by decide)
  · rw [hm] at h3
    exact absurd h3 (by decide)
  · have h4x : (!(isNumBody t)) = true := h4
    rw [ht] at h4x
    exact absurd h4x (by decide)
  · exfalso
    have hf1 : jsFinite (|parseSigned h|) = true := by rw [jsFinite_abs]; exact hfin
    have hf2 : jsFinite (parseNumBody m) = true :=
      jsFinite_of_nonneg_lt60 (parseNumBody_nonneg m) hmr
    have hf3 : jsFinite (secondsVal (some t)) = true :=
      jsFinite_of_nonneg_lt60 (parseNumBody_nonneg t) htr
    simp [hf1, hf2, hf3] at h5
  · exfalso
    rcases h6 with hx | hx
    · exact absurd hx (not_lt.mpr (parseNumBody_nonneg m))
    · exact absurd hx (not_le.mpr hmr)
  · exfalso
    rcases h7 with hx | hx
    · exact absurd hx (not_lt.mpr (parseNumBody_nonneg t))
    · exact absurd hx (not_le.mpr htr)
  · rfl

/-- C2 (amended): a trimmed input containing a colon that splits into
exactly 2 or 3 valid segments (hour: optional sign then digits; minutes:
digits, value below 60; seconds, when present: digits with optional
fraction, value below 60) parses to round(sign * (hours * 3600000 +
minutes * 60000 + seconds * 1000)), where the sign comes solely from the
hour segment, hours is that segment's unsigned magnitude, the sign is
applied to the whole unsigned sum, and rounding is applied once — provided
the hour magnitude is below the double-overflow threshold (above it the
parse fails instead, see `colon_time_value_cx`). -/
theorem colon_time_value (raw h m s3 : List Char) (hc : (trim raw).contains ':' = true) :
    (splitColon (trim raw) = [h, m] → isSignedInt h = true → isDigits1 m = true →
      parseNumBody m < 60 → jsFinite (parseSigned h) = true →
      parseDurationMs raw = .ok (some (jsRound (colonSign h *
        (|parseSigned h| * 3600000 + parseNumBody m * 60000)))))
    ∧ (splitColon (trim raw) = [h, m, s3] → isSignedInt h = true → isDigits1 m = true →
      parseNumBody m < 60 → isNumBody s3 = true → parseNumBody s3 < 60 →
      jsFinite (parseSigned h) = true →
      parseDurationMs raw = .ok (some (jsRound (colonSign h *
        (|parseSigned h| * 3600000 + parseNumBody m * 60000 + parseNumBody s3 * 1000))))) := by
  constructor
  · intro hsplit hh hm hmr hfin
    rw [parse_colon_branch hc]
    unfold parseColonTimeToMs
    simp only [hsplit]
    rw [trim_of_isSignedInt hh, trim_of_isDigits1 hm]
    rw [colonCore_value_none hh hm hmr hfin]
    have harg : (|parseSigned h| * 3600000 + parseNumBody m * 60000 +
        secondsVal none * 1000) * colonSign h =
        colonSign h * (|parseSigned h| * 3600000 + parseNumBody m * 60000) := by
      simp only [secondsVal]
      ring
    rw [harg]
  · intro hsplit hh hm hmr hs hsr hfin
    rw [parse_colon_branch hc]
    unfold parseColonTimeToMs
    simp only [hsplit]
    rw [trim_of_isSignedInt hh, trim_of_isDigits1 hm, trim_of_isNumBody hs]
    rw [colonCore_value_some hh hm hmr hs hsr hfin]
    have harg : (|parseSigned h| * 3600000 + parseNumBody m * 60000 +
        secondsVal (some s3) * 1000) * colonSign h =
        colonSign h * (|parseSigned h| * 3600000 + parseNumBody m * 60000 +
          parseNumBody s3 * 1000) := by
      simp only [secondsVal]
      ring
    rw [harg]

/-- C2 witness: "01:30:15.250" parses to 5415250, via `colon_time_value`. -/
theorem colon_time_value_witness :
    parseDurationMs ("01:30:15.250".data) = .ok (some 5415250) := by
  have h := (colon_time_value ("01:30:15.250".data) ("01".data) ("30".data)
      ("15.250".data) (by decide)).2 (by decide) (by decide) (by decide)
      (of_decide_eq_true (by with_unfolding_all rfl)) (by decide)
      (of_decide_eq_true (by with_unfolding_all rfl))
      (of_decide_eq_true (by with_unfolding_all rfl))
  exact h.trans (by with_unfolding_all rfl)

/-- C2 counterexample: "2 * 10^309 : 30" splits into two segments that
satisfy the claim's hour and minute patterns and ranges, yet the parse fails
with the invalid-colon error (the hour magnitude overflows a double) instead
of returning the claimed rounded value. -/
theorem colon_time_value_cx :
    splitColon (trim cxColonHuge) = [cxHugeHours, "30".data]
    ∧ isSignedInt cxHugeHours = true
    ∧ isDigits1 ("30".data) = true
    ∧ parseNumBody ("30".data) < 60
    ∧ parseDurationMs cxColonHuge = .error (.invalidColon cxColonHuge)
    ∧ ∀ v : Option Int, parseDurationMs cxColonHuge ≠ .ok v := by
  refine ⟨by decide, by decide, by decide,
    of_decide_eq_true (by with_unfolding_all rfl),
    by with_unfolding_all rfl, fun v hv => ?_⟩
  rw [(by with_unfolding_all rfl :
    parseDurationMs cxColonHuge = .error (.invalidColon cxColonHuge))] at hv
  exact Except.noConfusion hv
